import Mathlib

/-!
Verification of the virtualization & scroll-offset engine of a TV spatial-navigation
component library. The pure computations are embedded shallowly: pixel quantities are
rationals, indices are naturals, JS `Array` operations become `List` operations, and
the fallible `computeTranslation` returns `Except`.

Sources embedded:
  - `computeTranslation` and the four scroll-behavior policies
    (helpers/computeTranslation, given as an unnamed source part);
  - `VirtualizedList` internals: `dataSliceToRender`, `newTranslationValue`,
    `useOnEndReached` (components/virtualizedList/VirtualizedList.tsx);
  - `convertToGrid` (components/virtualizedGrid/helpers/convertToGrid.ts) and
    `itemSizeAsAFunction` (components/virtualizedGrid/SpatialNavigationVirtualizedGrid.tsx).

Helpers imported by those files but absent from the snapshot
(`getSizeInPxFromOneItemToAnother`, `getRange`, `computeAllScrollOffsets`,
`getNumberOfItemsVisibleOnScreen`) are modelled from the spec, each marked
`Modelled from the spec:` in its doc comment.
-/

universe u

variable {T : Type u}

/-- The item sizing model `itemSizeInPx: number | ((item: T) => number)`:
either a fixed pixel extent or a per-item extent function. -/
inductive ItemSize (T : Type u) where
  | fixed (extent : ℚ)
  | dynamic (extentOf : T → ℚ)

/-- Modelled from the spec: `getSizeInPxFromOneItemToAnother` is imported by the
scroll-offset code but its file is missing from the snapshot. The spec defines
`cumulativeExtent(data, itemExtent, from, to)` as the sum of extents over the
half-open range `[from, to)`, with fixed mode computed as `count × extent`. -/
def getSizeInPxFromOneItemToAnother (data : List T) (itemSizeInPx : ItemSize T)
    (a b : ℕ) : ℚ :=
  match itemSizeInPx with
  | .fixed e => ((b - a : ℕ) : ℚ) * e
  | .dynamic f => (((data.drop a).take (b - a)).map f).sum

/-- The extent of `data[i]` (`typeof itemSizeInPx === 'function' ? itemSizeInPx(data[i])
: itemSizeInPx`). For an out-of-range index JS passes `undefined` to the consumer's
function; the model returns 0 there (the theorems keep the index in range). -/
def extentAt (data : List T) (itemSizeInPx : ItemSize T) (i : ℕ) : ℚ :=
  match itemSizeInPx with
  | .fixed e => e
  | .dynamic f => ((data.get? i).map f).getD 0

/-- All item extents are positive, as the data model requires
(fixed mode: the constant is positive; dynamic mode: positive on every item). -/
def PositiveExtents (data : List T) : ItemSize T → Prop
  | .fixed e => 0 < e
  | .dynamic f => ∀ t ∈ data, 0 < f t

/-- `computeStickToStartTranslation` from the scroll-offset source. -/
def computeStickToStartTranslation (currentlyFocusedItemIndex : ℕ)
    (itemSizeInPx : ItemSize T) (data : List T)
    (maxPossibleLeftAlignedIndex : ℕ) : ℚ :=
  let scrollOffset :=
    if currentlyFocusedItemIndex < maxPossibleLeftAlignedIndex then
      getSizeInPxFromOneItemToAnother data itemSizeInPx 0 currentlyFocusedItemIndex
    else
      getSizeInPxFromOneItemToAnother data itemSizeInPx 0 maxPossibleLeftAlignedIndex;
  -scrollOffset

/-- `computeStickToEndTranslation` from the scroll-offset source
(JS `-0` is the rational 0). -/
def computeStickToEndTranslation (currentlyFocusedItemIndex : ℕ)
    (itemSizeInPx : ItemSize T) (data : List T) (listSizeInPx : ℚ)
    (maxPossibleRightAlignedIndex : ℕ) : ℚ :=
  if currentlyFocusedItemIndex ≤ maxPossibleRightAlignedIndex then 0
  else
    let currentlyFocusedItemSize := extentAt data itemSizeInPx currentlyFocusedItemIndex
    let sizeOfListFromStartToCurrentlyFocusedItem :=
      getSizeInPxFromOneItemToAnother data itemSizeInPx 0 currentlyFocusedItemIndex;
    -(sizeOfListFromStartToCurrentlyFocusedItem + currentlyFocusedItemSize - listSizeInPx)

/-- The two failure modes of `computeTranslation`: the `jump-on-scroll`/dynamic-size
throw and the unknown-behavior throw in the `default` branch of the switch. -/
inductive ConfigError where
  | unsupportedConfiguration
  | invalidConfiguration (tag : String)
deriving DecidableEq

/-- `computeJumpOnScrollTranslation` from the scroll-offset source. Throwing is
modelled by `Except.error`. `Math.max(nbMaxOfItems - numberOfItemsVisibleOnScreen, 0)`
is truncated natural subtraction. -/
def computeJumpOnScrollTranslation (currentlyFocusedItemIndex : ℕ)
    (itemSizeInPx : ItemSize T)
    (nbMaxOfItems numberOfItemsVisibleOnScreen : ℕ) : Except ConfigError ℚ :=
  match itemSizeInPx with
  | .dynamic _ => .error .unsupportedConfiguration
  | .fixed e =>
    let maxPossibleLeftAlignedIndex := nbMaxOfItems - numberOfItemsVisibleOnScreen
    let indexOfItemToFocus :=
      currentlyFocusedItemIndex - currentlyFocusedItemIndex % numberOfItemsVisibleOnScreen
    let leftAlignedIndex := min indexOfItemToFocus maxPossibleLeftAlignedIndex
    .ok (-((leftAlignedIndex : ℚ) * e))

/-- `computeCenterTranslation` from the scroll-offset source. The source receives
`maxPossibleLeftAlignedIndex` but never reads it, so it is not a parameter here.
The JS comparison `i >= data.length - centerThreshold` agrees with the truncated
natural subtraction because `i ≥ 0`. -/
def computeCenterTranslation (currentlyFocusedItemIndex : ℕ) (itemSizeInPx : ItemSize T)
    (data : List T) (listSizeInPx : ℚ) (numberOfItemsVisibleOnScreen : ℕ)
    (maxPossibleRightAlignedIndex : ℕ) : ℚ :=
  let centerThreshold := numberOfItemsVisibleOnScreen / 2
  if currentlyFocusedItemIndex < centerThreshold then 0
  else if data.length - centerThreshold ≤ currentlyFocusedItemIndex then
    computeStickToEndTranslation currentlyFocusedItemIndex itemSizeInPx data listSizeInPx
      maxPossibleRightAlignedIndex
  else
    let currentItemSize := extentAt data itemSizeInPx currentlyFocusedItemIndex
    let itemOffset :=
      getSizeInPxFromOneItemToAnother data itemSizeInPx 0 currentlyFocusedItemIndex
    let centerOffset := (listSizeInPx - currentItemSize) / 2;
    -(itemOffset - centerOffset)

/-- `computeTranslation` from the scroll-offset source: the switch over the behavior
tag, with the `default` branch throwing on an unknown tag. The tag is a string, as in
the JS switch. -/
def computeTranslation (scrollBehavior : String) (currentlyFocusedItemIndex : ℕ)
    (itemSizeInPx : ItemSize T) (nbMaxOfItems numberOfItemsVisibleOnScreen : ℕ)
    (data : List T) (listSizeInPx : ℚ)
    (maxPossibleLeftAlignedIndex maxPossibleRightAlignedIndex : ℕ) :
    Except ConfigError ℚ :=
  if scrollBehavior = "stick-to-start" then
    .ok (computeStickToStartTranslation currentlyFocusedItemIndex itemSizeInPx data
      maxPossibleLeftAlignedIndex)
  else if scrollBehavior = "stick-to-end" then
    .ok (computeStickToEndTranslation currentlyFocusedItemIndex itemSizeInPx data
      listSizeInPx maxPossibleRightAlignedIndex)
  else if scrollBehavior = "jump-on-scroll" then
    computeJumpOnScrollTranslation currentlyFocusedItemIndex itemSizeInPx nbMaxOfItems
      numberOfItemsVisibleOnScreen
  else if scrollBehavior = "center" then
    .ok (computeCenterTranslation currentlyFocusedItemIndex itemSizeInPx data listSizeInPx
      numberOfItemsVisibleOnScreen maxPossibleRightAlignedIndex)
  else
    .error (.invalidConfiguration scrollBehavior)

/-- Modelled from the spec: `getRange` is imported by `VirtualizedList` but its file is
missing from the snapshot. The spec defines the render window as
`start = clamp(focusIndex − floor(windowSize/2), 0, max(N−windowSize,0))`,
`end = min(start+windowSize, N)`, with `end` exclusive. Over naturals the clamp is
`min (i - w/2) (N - w)` with truncated subtraction. -/
def getRange (n focusIndex windowSize : ℕ) : ℕ × ℕ :=
  let start := min (focusIndex - windowSize / 2) (n - windowSize)
  (start, min (start + windowSize) n)

/-- JS `Array.prototype.slice(a, b)` for `0 ≤ a ≤ b`: the elements with indices in
`[a, min(b, length))`. -/
def jsSlice (data : List T) (a b : ℕ) : List T := (data.drop a).take (b - a)

/-- `dataSliceToRender = data.slice(range.start, range.end + 1)` from
`VirtualizedList`. -/
def dataSliceToRender (data : List T) (range : ℕ × ℕ) : List T :=
  jsSlice data range.1 (range.2 + 1)

/-- Modelled from the spec: `getNumberOfItemsVisibleOnScreen` is imported by
`VirtualizedList` but its file is missing from the snapshot. The spec defines
dynamic-mode `visibleCount` as the count of items accumulated from index 0 until the
cumulative extent reaches the viewport extent. -/
def visibleCountDynamic (f : T → ℚ) : ℚ → List T → ℕ
  | _, [] => 0
  | remaining, x :: xs =>
    if remaining ≤ 0 then 0 else 1 + visibleCountDynamic f (remaining - f x) xs

/-- Modelled from the spec: `getNumberOfItemsVisibleOnScreen` — fixed mode is
`ceil(viewportExtent / extent)`, dynamic mode accumulates, and empty data yields 0. -/
def getNumberOfItemsVisibleOnScreen (data : List T) (listSizeInPx : ℚ)
    (itemSize : ItemSize T) : ℕ :=
  if data.isEmpty then 0
  else
    match itemSize with
    | .fixed e => (⌈listSizeInPx / e⌉).toNat
    | .dynamic f => visibleCountDynamic f listSizeInPx data

/-- Modelled from the spec: `computeAllScrollOffsets` (the `OffsetTable.build` of the
spec) is imported by `VirtualizedList` but its file is missing from the snapshot. The
spec: offsets are computed for all `N` indices using the behavior's policy, with
`maxLeftAlignedIndex = maxRightAlignedIndex = max(N−visibleCount,0)`. A policy error
contributes 0 (never reached for the four valid behaviors with fixed extents). -/
def computeAllScrollOffsets (scrollBehavior : String) (itemSizeInPx : ItemSize T)
    (nbMaxOfItems numberOfItemsVisibleOnScreen : ℕ) (data : List T)
    (listSizeInPx : ℚ) : List ℚ :=
  let maxAligned := nbMaxOfItems - numberOfItemsVisibleOnScreen
  (List.range data.length).map fun i =>
    ((computeTranslation scrollBehavior i itemSizeInPx nbMaxOfItems
      numberOfItemsVisibleOnScreen data listSizeInPx maxAligned maxAligned).toOption).getD 0

/-- JS `array[i]`: `undefined` (here `none`) outside `[0, length)`, the stored value
otherwise. -/
def jsGet (xs : List ℚ) (i : ℤ) : Option ℚ :=
  if 0 ≤ i then xs.get? i.toNat else none

/-- `newTranslationValue = allScrollOffsets[currentlyFocusedItemIndex]` from
`VirtualizedList` (line 219): a plain array access into the offset table. -/
def newTranslationValue (scrollBehavior : String) (itemSizeInPx : ItemSize T)
    (nbMaxOfItems numberOfItemsVisibleOnScreen : ℕ) (data : List T) (listSizeInPx : ℚ)
    (currentlyFocusedItemIndex : ℤ) : Option ℚ :=
  jsGet
    (computeAllScrollOffsets scrollBehavior itemSizeInPx nbMaxOfItems
      numberOfItemsVisibleOnScreen data listSizeInPx)
    currentlyFocusedItemIndex

/-- The guard of the `useOnEndReached` effect in `VirtualizedList`: `onEndReached` is
invoked iff `numberOfItems ≠ 0`, `range.end ≠ 0`, and
`currentlyFocusedItemIndex ≥ Math.max(numberOfItems - 1 - threshold, 0)`. -/
def useOnEndReachedFires (numberOfItems rangeEnd currentlyFocusedItemIndex
    onEndReachedThresholdItemsNumber : ℕ) : Bool :=
  if numberOfItems = 0 ∨ rangeEnd = 0 then false
  else
    decide (max (numberOfItems - 1 - onEndReachedThresholdItemsNumber) 0 ≤
      currentlyFocusedItemIndex)

/-- Modelled from the spec: `shouldFetchMore(focusIndex, N, thresholdCount)` is
`N>0 and focusIndex ≥ max(N−1−thresholdCount, 0)`. -/
def shouldFetchMore (focusIndex n thresholdCount : ℕ) : Bool :=
  decide (0 < n ∧ max (n - 1 - thresholdCount) 0 ≤ focusIndex)

/-- A row of the virtualized grid (`GridRowType<T> { items, index }`). -/
structure GridRowType (T : Type u) where
  items : List T
  index : ℕ
deriving DecidableEq

/-- The chunking loop of `convertToGrid`:
`for (let i = 0; i < data.length; i += numberOfColumns) rows.push(data.slice(i, i + numberOfColumns))`.
With `numberOfColumns = 0` the JS loop never advances and diverges; the model returns
`[]` there, and every theorem requires `numberOfColumns ≥ 1`. -/
def chunkRows : ℕ → List T → List (List T)
  | _, [] => []
  | 0, _ :: _ => []
  | c + 1, x :: xs => (x :: xs).take (c + 1) :: chunkRows (c + 1) ((x :: xs).drop (c + 1))
termination_by _c l => l.length
decreasing_by
  simp only [List.drop_succ_cons, List.length_drop, List.length_cons]
  omega

/-- JS `Array.prototype.map((element, index) => ...)`, the index-carrying map used by
`convertToGrid`, starting the index at the given offset. -/
def jsMapIdxFrom (f : α → ℕ → β) : ℕ → List α → List β
  | _, [] => []
  | i, x :: xs => f x i :: jsMapIdxFrom f (i + 1) xs

/-- `convertToGrid(data, numberOfColumns, header)`: chunk the data into rows, then
index them, shifting every index by 1 when a header is supplied
(`const computedIndex = header ? index + 1 : index`). -/
def convertToGrid (data : List T) (numberOfColumns : ℕ) (hasHeader : Bool) :
    List (GridRowType T) :=
  jsMapIdxFrom
    (fun items index => { items := items, index := if hasHeader then index + 1 else index })
    0 (chunkRows numberOfColumns data)

/-- An entry of the grid's virtualized list: either the header element or a grid row.
In the source the header is a JSX element (it has a `type` key) and a row is a plain
`GridRowType` object (it has none), which is how `itemSizeAsAFunction` tells them
apart. -/
inductive GridEntry (T : Type u) where
  | headerEntry
  | row (r : GridRowType T)

/-- `itemSizeAsAFunction` from `SpatialNavigationVirtualizedGrid`:
`if (hasHeader && typeof item === 'object' && 'type' in item) return headerSize;
return itemHeight;`. -/
def itemSizeAsAFunction (hasHeader : Bool) (headerSize itemHeight : ℚ) :
    GridEntry T → ℚ :=
  fun item =>
    match hasHeader, item with
    | true, .headerEntry => headerSize
    | _, _ => itemHeight

/-- `gridRowsWithHeaderIfProvided = hasHeader ? [header, ...gridRows] : gridRows` from
`SpatialNavigationVirtualizedGrid`. -/
def gridRowsWithHeaderIfProvided (hasHeader : Bool) (gridRows : List (GridRowType T)) :
    List (GridEntry T) :=
  if hasHeader then .headerEntry :: gridRows.map .row else gridRows.map .row

lemma sub_mod_eq_div_mul (i v : ℕ) : i - i % v = i / v * v := by
  have h : i = i / v * v + i % v := by
    rw [Nat.mul_comm (i / v) v]
    exact (Nat.div_add_mod i v).symm
  exact Nat.sub_eq_of_eq_add h

/-- C4: under jump-on-scroll with fixed item extent `E` and `visibleCount ≥ 1`, the
offset at focus index `i` is `-min(floor(i/visibleCount)·visibleCount,
maxLeftAlignedIndex)·E`; the offset depends on `i` only through its page
`floor(i/visibleCount)`; and with `E = 50`, `visibleCount = 10`, `nbMaxOfItems = 1000`,
the offsets at indices 0–9 are all 0 and the offset at 15 is −500. -/
theorem c4_jumpOnScroll (E : ℚ) (nbMaxOfItems numberOfItemsVisibleOnScreen : ℕ)
    (hvc : 1 ≤ numberOfItemsVisibleOnScreen) :
    (∀ i, computeJumpOnScrollTranslation i (ItemSize.fixed E : ItemSize Unit) nbMaxOfItems
        numberOfItemsVisibleOnScreen =
      .ok (-((min (i / numberOfItemsVisibleOnScreen * numberOfItemsVisibleOnScreen)
        (nbMaxOfItems - numberOfItemsVisibleOnScreen) : ℕ) * E))) ∧
    (∀ i j, i / numberOfItemsVisibleOnScreen = j / numberOfItemsVisibleOnScreen →
      computeJumpOnScrollTranslation i (ItemSize.fixed E : ItemSize Unit) nbMaxOfItems
        numberOfItemsVisibleOnScreen =
      computeJumpOnScrollTranslation j (ItemSize.fixed E : ItemSize Unit) nbMaxOfItems
        numberOfItemsVisibleOnScreen) ∧
    (∀ i, i ≤ 9 →
      computeJumpOnScrollTranslation i (ItemSize.fixed (50 : ℚ) : ItemSize Unit) 1000 10 =
      .ok 0) ∧
    computeJumpOnScrollTranslation 15 (ItemSize.fixed (50 : ℚ) : ItemSize Unit) 1000 10 =
      .ok (-500) := by
  refine ⟨fun i => ?_, fun i j h => ?_, fun i hi => ?_, ?_⟩
  · simp [computeJumpOnScrollTranslation, sub_mod_eq_div_mul]
  · simp only [computeJumpOnScrollTranslation, sub_mod_eq_div_mul, h]
  · interval_cases i <;> norm_num [computeJumpOnScrollTranslation]
  · norm_num [computeJumpOnScrollTranslation]

theorem c4_jumpOnScroll_witness :
    computeJumpOnScrollTranslation 15 (ItemSize.fixed (50 : ℚ) : ItemSize Unit) 1000 10 =
      .ok (-500) :=
  (c4_jumpOnScroll 50 1000 10 (by decide)).2.2.2

/-- C7: `computeTranslation` fails exactly in the specified configurations — it yields
`UnsupportedConfiguration` iff the behavior is `jump-on-scroll` with a per-item extent
function, it yields an `InvalidConfiguration` error iff the behavior tag is not one of
the four known behaviors, and in every other case it returns an offset. -/
theorem c7_errorCases (scrollBehavior : String) (i : ℕ) (s : ItemSize T)
    (nbMax vc : ℕ) (data : List T) (listSize : ℚ) (maxL maxR : ℕ) :
    ((computeTranslation scrollBehavior i s nbMax vc data listSize maxL maxR =
        .error .unsupportedConfiguration) ↔
      (scrollBehavior = "jump-on-scroll" ∧ ∃ f, s = ItemSize.dynamic f)) ∧
    ((∃ t, computeTranslation scrollBehavior i s nbMax vc data listSize maxL maxR =
        .error (.invalidConfiguration t)) ↔
      ¬(scrollBehavior = "stick-to-start" ∨ scrollBehavior = "stick-to-end" ∨
        scrollBehavior = "jump-on-scroll" ∨ scrollBehavior = "center")) ∧
    ((∃ q, computeTranslation scrollBehavior i s nbMax vc data listSize maxL maxR =
        .ok q) ↔
      (scrollBehavior = "stick-to-start" ∨ scrollBehavior = "stick-to-end" ∨
          scrollBehavior = "center") ∨
        (scrollBehavior = "jump-on-scroll" ∧ ∃ e, s = ItemSize.fixed e)) := by
  by_cases h1 : scrollBehavior = "stick-to-start"
  · subst h1; simp [computeTranslation]
  · by_cases h2 : scrollBehavior = "stick-to-end"
    · subst h2; simp [computeTranslation]
    · by_cases h3 : scrollBehavior = "jump-on-scroll"
      · subst h3
        cases s with
        | fixed e => simp [computeTranslation, computeJumpOnScrollTranslation, h1, h2]
        | dynamic f => simp [computeTranslation, computeJumpOnScrollTranslation, h1, h2]
      · by_cases h4 : scrollBehavior = "center"
        · subst h4; simp [computeTranslation, h1, h2, h3]
        · simp [computeTranslation, h1, h2, h3, h4]

/-- C9: the `useOnEndReached` guard coincides with the spec's
`shouldFetchMore(focusIndex, N, thresholdCount) = (N>0 and focusIndex ≥
max(N−1−thresholdCount, 0))` once the render window is derived from a positive window
size, and `shouldFetchMore(996,1000,3) = true`, `shouldFetchMore(995,1000,3) = false`. -/
theorem c9_shouldFetchMore (numberOfItems i windowSize threshold : ℕ)
    (hw : 1 ≤ windowSize) :
    (useOnEndReachedFires numberOfItems (getRange numberOfItems i windowSize).2 i
        threshold = true ↔
      shouldFetchMore i numberOfItems threshold = true) ∧
    (shouldFetchMore i numberOfItems threshold = true ↔
      (0 < numberOfItems ∧ max (numberOfItems - 1 - threshold) 0 ≤ i)) ∧
    shouldFetchMore 996 1000 3 = true ∧
    shouldFetchMore 995 1000 3 = false := by
  refine ⟨?_, by simp [shouldFetchMore], by decide, by decide⟩
  simp only [useOnEndReachedFires, shouldFetchMore, getRange, decide_eq_true_eq]
  split
  · next h => simp only [Bool.false_eq_true, false_iff]; omega
  · next h => simp only [decide_eq_true_eq]; omega

theorem c9_shouldFetchMore_witness :
    useOnEndReachedFires 1000 (getRange 1000 996 12).2 996 3 = true :=
  ((c9_shouldFetchMore 1000 996 12 3 (by decide)).1).mpr (by decide)

/-- C6 (counterexample): over the offset table for a stick-to-start list of two items
of extent 50 (stored offsets 0 and −50), looking up the out-of-range focus index 2
yields no value at all (JS `undefined`) instead of the offset −50 stored for index
`N − 1 = 1`, refuting the claimed clamping. -/
theorem c6_counterexample :
    newTranslationValue "stick-to-start" (ItemSize.fixed 50) 2 1 ([0, 1] : List ℕ) 50 2 =
      none ∧
    newTranslationValue "stick-to-start" (ItemSize.fixed 50) 2 1 ([0, 1] : List ℕ) 50 1 =
      some (-50) := by
  constructor
  · rfl
  · simp only [newTranslationValue, jsGet, computeAllScrollOffsets, computeTranslation,
      computeStickToStartTranslation, getSizeInPxFromOneItemToAnother]
    norm_num [List.range_succ, Except.toOption]

/-- C6 (amended): looking up an out-of-range focus index in the offset table does not
throw, but it does not clamp either — the plain array access
`allScrollOffsets[currentlyFocusedItemIndex]` yields no value (JS `undefined`). -/
theorem c6_lookupOutOfRange (scrollBehavior : String) (s : ItemSize T)
    (nbMax vc : ℕ) (data : List T) (listSize : ℚ) (i : ℤ)
    (h : i < 0 ∨ (data.length : ℤ) ≤ i) :
    newTranslationValue scrollBehavior s nbMax vc data listSize i = none := by
  unfold newTranslationValue jsGet
  by_cases h0 : (0 : ℤ) ≤ i
  · rw [if_pos h0]
    apply List.get?_eq_none.mpr
    have hlen : (computeAllScrollOffsets scrollBehavior s nbMax vc data listSize).length =
        data.length := by
      simp [computeAllScrollOffsets]
    rw [hlen]
    omega
  · rw [if_neg h0]

theorem c6_lookupOutOfRange_witness :
    newTranslationValue "stick-to-start" (ItemSize.fixed 50) 2 1 ([0, 1] : List ℕ) 50 5 =
      none :=
  c6_lookupOutOfRange "stick-to-start" (ItemSize.fixed 50) 2 1 [0, 1] 50 5
    (Or.inr (by decide))

lemma chunkRows_cons (c : ℕ) (x : T) (xs : List T) :
    chunkRows (c + 1) (x :: xs) =
      (x :: xs).take (c + 1) :: chunkRows (c + 1) ((x :: xs).drop (c + 1)) := by
  rw [chunkRows]

lemma chunkRows_getElem (c : ℕ) : ∀ (r : ℕ) (data : List T),
    (chunkRows (c + 1) data)[r]? =
      if r * (c + 1) < data.length then some ((data.drop (r * (c + 1))).take (c + 1))
      else none := by
  intro r
  induction r with
  | zero =>
    intro data
    cases data with
    | nil => simp [chunkRows]
    | cons x xs => simp [chunkRows_cons]
  | succ r ih =>
    intro data
    cases data with
    | nil => simp [chunkRows]
    | cons x xs =>
      rw [chunkRows_cons, List.getElem?_cons_succ, ih, List.drop_drop]
      have hmul : c + 1 + r * (c + 1) = (r + 1) * (c + 1) := by ring
      rw [hmul]
      have hcond : r * (c + 1) < ((x :: xs).drop (c + 1)).length ↔
          (r + 1) * (c + 1) < (x :: xs).length := by
        rw [List.length_drop]
        have h2 : (r + 1) * (c + 1) = r * (c + 1) + (c + 1) := by ring
        rw [h2]
        omega
      rw [if_congr hcond rfl rfl]

lemma chunkRows_length_succ (c : ℕ) (data : List T) :
    (chunkRows (c + 1) data).length = (data.length + c) / (c + 1) := by
  have H : ∀ (n : ℕ) (l : List T), l.length ≤ n →
      (chunkRows (c + 1) l).length = (l.length + c) / (c + 1) := by
    intro n
    induction n with
    | zero =>
      intro l hl
      have hnil : l = [] := List.eq_nil_of_length_eq_zero (Nat.le_zero.mp hl)
      subst hnil
      simp [chunkRows]
      exact (Nat.div_eq_of_lt (by omega)).symm
    | succ n ih =>
      intro l hl
      cases l with
      | nil =>
        simp [chunkRows]
        exact (Nat.div_eq_of_lt (by omega)).symm
      | cons x xs =>
        rw [chunkRows_cons]
        simp only [List.length_cons]
        rw [ih ((x :: xs).drop (c + 1)) (by simp only [List.length_drop, List.length_cons] at hl ⊢; omega)]
        rw [List.length_drop]
        simp only [List.length_cons]
        by_cases hbig : c + 1 ≤ xs.length + 1
        · have h1 : xs.length + 1 + c = xs.length + 1 - 1 + (c + 1) := by omega
          have h2 : xs.length + 1 - (c + 1) + c = xs.length + 1 - 1 := by omega
          rw [h1, h2, Nat.add_div_right _ (by omega)]
        · have h1 : xs.length + 1 - (c + 1) = 0 := by omega
          rw [h1]
          rw [Nat.div_eq_of_lt (by omega)]
          exact (Nat.div_eq_of_lt_le (by omega) (by omega)).symm
  exact H data.length data le_rfl

lemma chunkRows_flatten_succ (c : ℕ) (data : List T) :
    (chunkRows (c + 1) data).flatten = data := by
  have H : ∀ (n : ℕ) (l : List T), l.length ≤ n → (chunkRows (c + 1) l).flatten = l := by
    intro n
    induction n with
    | zero =>
      intro l hl
      have hnil : l = [] := List.eq_nil_of_length_eq_zero (Nat.le_zero.mp hl)
      subst hnil
      simp [chunkRows]
    | succ n ih =>
      intro l hl
      cases l with
      | nil => simp [chunkRows]
      | cons x xs =>
        rw [chunkRows_cons]
        simp only [List.flatten_cons]
        rw [ih ((x :: xs).drop (c + 1)) (by simp only [List.length_drop, List.length_cons] at hl ⊢; omega)]
        exact List.take_append_drop _ _
  exact H data.length data le_rfl

lemma jsMapIdxFrom_getElem (f : α → ℕ → β) : ∀ (l : List α) (i r : ℕ),
    (jsMapIdxFrom f i l)[r]? = l[r]?.map (fun x => f x (i + r)) := by
  intro l
  induction l with
  | nil => intro i r; simp [jsMapIdxFrom]
  | cons x xs ih =>
    intro i r
    cases r with
    | zero => simp [jsMapIdxFrom]
    | succ r =>
      simp only [jsMapIdxFrom, List.getElem?_cons_succ]
      rw [ih (i + 1) r]
      have h : i + 1 + r = i + (r + 1) := by omega
      rw [h]

lemma jsMapIdxFrom_length (f : α → ℕ → β) : ∀ (l : List α) (i : ℕ),
    (jsMapIdxFrom f i l).length = l.length := by
  intro l
  induction l with
  | nil => intro i; rfl
  | cons x xs ih => intro i; simp [jsMapIdxFrom, ih]

lemma convertToGrid_getElem (data : List T) (c : ℕ) (hasHeader : Bool) (r : ℕ) :
    (convertToGrid data (c + 1) hasHeader)[r]? =
      if r * (c + 1) < data.length then
        some { items := (data.drop (r * (c + 1))).take (c + 1),
               index := if hasHeader then r + 1 else r }
      else none := by
  unfold convertToGrid
  rw [jsMapIdxFrom_getElem, chunkRows_getElem]
  by_cases h : r * (c + 1) < data.length
  · rw [if_pos h, if_pos h]
    simp
  · rw [if_neg h, if_neg h]
    simp

lemma convertToGrid_items_flatten (data : List T) (numberOfColumns : ℕ)
    (hc : 1 ≤ numberOfColumns) (hasHeader : Bool) :
    ((convertToGrid data numberOfColumns hasHeader).map GridRowType.items).flatten = data := by
  obtain ⟨c, rfl⟩ : ∃ c, numberOfColumns = c + 1 := ⟨numberOfColumns - 1, by omega⟩
  unfold convertToGrid
  have hmap : ∀ (i : ℕ) (rows : List (List T)),
      (jsMapIdxFrom (fun items index =>
        ({ items := items, index := if hasHeader then index + 1 else index } : GridRowType T))
        i rows).map GridRowType.items = rows := by
    intro i rows
    induction rows generalizing i with
    | nil => rfl
    | cons y ys ih => simp [jsMapIdxFrom, ih]
  rw [hmap, chunkRows_flatten_succ]

/-- C8: `convertToGrid` partitions the data row-major — the item at flat index `k`
sits in row `floor(k/columns)` at column `k mod columns`, there are
`ceil(N/columns)` rows, every row holds exactly the corresponding slice of the data
(so the last row is never padded and the concatenation restores the data), a header
shifts every data row's index by 1 with the header occupying entry 0, and the exposed
per-row extent function returns the header's own extent for the header entry and the
item extent for every row. -/
theorem c8_gridChunking (data : List T) (numberOfColumns : ℕ)
    (hc : 1 ≤ numberOfColumns) (hasHeader : Bool) :
    ((convertToGrid data numberOfColumns hasHeader).length =
      (data.length + numberOfColumns - 1) / numberOfColumns) ∧
    (∀ k, k < data.length →
      ((convertToGrid data numberOfColumns hasHeader)[k / numberOfColumns]?).bind
        (fun row => row.items[k % numberOfColumns]?) = data[k]?) ∧
    (∀ r row, (convertToGrid data numberOfColumns hasHeader)[r]? = some row →
      row.index = (if hasHeader then r + 1 else r) ∧
      row.items = (data.drop (r * numberOfColumns)).take numberOfColumns) ∧
    (((convertToGrid data numberOfColumns hasHeader).map GridRowType.items).flatten =
      data) ∧
    ((gridRowsWithHeaderIfProvided true (convertToGrid data numberOfColumns true))[0]? =
      some GridEntry.headerEntry) ∧
    (∀ p,
      (gridRowsWithHeaderIfProvided true (convertToGrid data numberOfColumns true))[p + 1]? =
      ((convertToGrid data numberOfColumns true)[p]?).map GridEntry.row) ∧
    (∀ headerSize itemHeight : ℚ,
      itemSizeAsAFunction true headerSize itemHeight (GridEntry.headerEntry : GridEntry T) =
        headerSize ∧
      ∀ row : GridRowType T,
        itemSizeAsAFunction true headerSize itemHeight (GridEntry.row row) = itemHeight) := by
  obtain ⟨c, rfl⟩ : ∃ c, numberOfColumns = c + 1 := ⟨numberOfColumns - 1, by omega⟩
  refine ⟨?_, ?_, ?_, ?_, ?_, ?_, ?_⟩
  · unfold convertToGrid
    rw [jsMapIdxFrom_length, chunkRows_length_succ]
    congr 1
  · intro k hk
    have hpos : 0 < c + 1 := by omega
    have hdivle : k / (c + 1) * (c + 1) ≤ k := Nat.div_mul_le_self k (c + 1)
    rw [convertToGrid_getElem, if_pos (by omega)]
    simp only [Option.some_bind]
    rw [List.getElem?_take_of_lt (Nat.mod_lt k hpos), List.getElem?_drop]
    have h := Nat.div_add_mod k (c + 1)
    rw [Nat.mul_comm] at h
    congr 1
  · intro r row hrow
    rw [convertToGrid_getElem] at hrow
    by_cases h : r * (c + 1) < data.length
    · rw [if_pos h] at hrow
      have heq := Option.some.inj hrow
      rw [← heq]
      exact ⟨rfl, rfl⟩
    · rw [if_neg h] at hrow
      exact absurd hrow (by simp)
  · exact convertToGrid_items_flatten data (c + 1) (by omega) hasHeader
  · simp [gridRowsWithHeaderIfProvided]
  · intro p
    simp [gridRowsWithHeaderIfProvided, List.getElem?_cons_succ, List.getElem?_map]
  · intro headerSize itemHeight
    exact ⟨rfl, fun row => rfl⟩

theorem c8_gridChunking_witness :
    ((convertToGrid (List.range 24) 5 true).length =
      ((List.range 24).length + 5 - 1) / 5) ∧
    ((convertToGrid (List.range 24) 5 true)[22 / 5]?).bind
      (fun row => row.items[22 % 5]?) = (List.range 24)[22]? := by
  have h := c8_gridChunking (List.range 24) 5 (by decide) true
  exact ⟨h.1, h.2.1 22 (by simp)⟩

/-- C10: for every column count `c ≥ 1`, `convertToGrid` terminates (it is a total
function once the loop advance `c ≥ 1` is required) and the concatenation of its rows'
items in row order is exactly the input data — every item appears exactly once, in
order, with nothing added to the last row. -/
theorem c10_rowMajorPartition (data : List T) (numberOfColumns : ℕ)
    (hc : 1 ≤ numberOfColumns) (hasHeader : Bool) :
    ((convertToGrid data numberOfColumns hasHeader).map GridRowType.items).flatten =
      data :=
  convertToGrid_items_flatten data numberOfColumns hc hasHeader

theorem c10_rowMajorPartition_witness :
    ((convertToGrid (List.range 7) 3 false).map GridRowType.items).flatten =
      List.range 7 :=
  c10_rowMajorPartition (List.range 7) 3 (by decide) false

lemma cumulativeExtent_zero (data : List T) (s : ItemSize T) :
    getSizeInPxFromOneItemToAnother data s 0 0 = 0 := by
  cases s <;> simp [getSizeInPxFromOneItemToAnother]

lemma cumulativeExtent_mono (data : List T) (s : ItemSize T)
    (hpos : PositiveExtents data s) {a b : ℕ} (hab : a ≤ b) :
    getSizeInPxFromOneItemToAnother data s 0 a ≤
      getSizeInPxFromOneItemToAnother data s 0 b := by
  cases s with
  | fixed e =>
    simp only [getSizeInPxFromOneItemToAnother, Nat.sub_zero]
    have he : 0 < e := hpos
    apply mul_le_mul_of_nonneg_right _ (le_of_lt he)
    exact_mod_cast hab
  | dynamic f =>
    simp only [getSizeInPxFromOneItemToAnother, Nat.sub_zero, List.drop_zero]
    have hsplit : data.take b = data.take a ++ (data.drop a).take (b - a) := by
      conv_lhs => rw [show b = a + (b - a) from by omega]
      exact List.take_add data a (b - a)
    rw [hsplit, List.map_append, List.sum_append]
    apply le_add_of_nonneg_right
    apply List.sum_nonneg
    intro x hx
    obtain ⟨t, ht, rfl⟩ := List.mem_map.mp hx
    have htdata : t ∈ data := List.drop_subset a data (List.take_subset _ _ ht)
    exact le_of_lt (hpos t htdata)

/-- C2: with positive extents, the stick-to-start offset equals
`-cumulativeExtent(0, min(i, maxLeftAlignedIndex))`, so `offset(0) = 0` and the offset
is non-increasing in the focus index; and the stick-to-end offset is 0 whenever
`i ≤ maxRightAlignedIndex` and otherwise equals
`-(cumulativeExtent(0,i) + extent(i) - viewportExtent)`. -/
theorem c2_stickOffsets (data : List T) (s : ItemSize T) (listSizeInPx : ℚ)
    (maxLeft maxRight : ℕ) (hpos : PositiveExtents data s) :
    (∀ i, computeStickToStartTranslation i s data maxLeft =
      -getSizeInPxFromOneItemToAnother data s 0 (min i maxLeft)) ∧
    computeStickToStartTranslation 0 s data maxLeft = 0 ∧
    (∀ i j, i ≤ j → computeStickToStartTranslation j s data maxLeft ≤
      computeStickToStartTranslation i s data maxLeft) ∧
    (∀ i, i ≤ maxRight →
      computeStickToEndTranslation i s data listSizeInPx maxRight = 0) ∧
    (∀ i, maxRight < i →
      computeStickToEndTranslation i s data listSizeInPx maxRight =
      -(getSizeInPxFromOneItemToAnother data s 0 i + extentAt data s i - listSizeInPx)) := by
  have hstart : ∀ i, computeStickToStartTranslation i s data maxLeft =
      -getSizeInPxFromOneItemToAnother data s 0 (min i maxLeft) := by
    intro i
    unfold computeStickToStartTranslation
    by_cases h : i < maxLeft
    · rw [if_pos h, Nat.min_eq_left (le_of_lt h)]
    · rw [if_neg h, Nat.min_eq_right (by omega)]
  refine ⟨hstart, ?_, ?_, ?_, ?_⟩
  · rw [hstart 0]
    have hmin : min 0 maxLeft = 0 := Nat.min_eq_left (Nat.zero_le _)
    rw [hmin, cumulativeExtent_zero, neg_zero]
  · intro i j hij
    rw [hstart i, hstart j]
    apply neg_le_neg
    exact cumulativeExtent_mono data s hpos (by omega)
  · intro i hi
    unfold computeStickToEndTranslation
    rw [if_pos hi]
  · intro i hi
    unfold computeStickToEndTranslation
    rw [if_neg (by omega)]

theorem c2_stickOffsets_witness :
    computeStickToStartTranslation 0 (ItemSize.fixed 50) ([0, 1, 2] : List ℕ) 1 = 0 ∧
    computeStickToEndTranslation 1 (ItemSize.fixed 50) ([0, 1, 2] : List ℕ) 100 1 = 0 := by
  have h := c2_stickOffsets ([0, 1, 2] : List ℕ) (ItemSize.fixed 50) 100 1 1
    (by norm_num : (0 : ℚ) < 50)
  exact ⟨h.2.1, h.2.2.2.1 1 le_rfl⟩

/-- C3: under the center behavior with `half = floor(visibleCount/2)`, the offset is 0
while `i < half`, degrades to the stick-to-end offset once `i ≥ N − half`, and
otherwise equals `-(cumulativeExtent(0,i) − (viewportExtent − extent(i))/2)`; with
N = 1000, visibleCount = 10, viewportExtent = 500, item extent 50, `offset(4) = 0` and
`offset(500) = −24775`, which places item 500's center exactly at the viewport's
center (within one item extent). -/
theorem c3_centerBehavior (data : List T) (s : ItemSize T) (listSizeInPx : ℚ)
    (numberOfItemsVisibleOnScreen maxRight : ℕ) :
    (∀ i, i < numberOfItemsVisibleOnScreen / 2 →
      computeCenterTranslation i s data listSizeInPx numberOfItemsVisibleOnScreen
        maxRight = 0) ∧
    (∀ i, numberOfItemsVisibleOnScreen / 2 ≤ i →
      data.length - numberOfItemsVisibleOnScreen / 2 ≤ i →
      computeCenterTranslation i s data listSizeInPx numberOfItemsVisibleOnScreen
        maxRight =
      computeStickToEndTranslation i s data listSizeInPx maxRight) ∧
    (∀ i, numberOfItemsVisibleOnScreen / 2 ≤ i →
      i < data.length - numberOfItemsVisibleOnScreen / 2 →
      computeCenterTranslation i s data listSizeInPx numberOfItemsVisibleOnScreen
        maxRight =
      -(getSizeInPxFromOneItemToAnother data s 0 i -
        (listSizeInPx - extentAt data s i) / 2)) ∧
    computeCenterTranslation 4 (ItemSize.fixed 50) (List.replicate 1000 ()) 500 10
      990 = 0 ∧
    computeCenterTranslation 500 (ItemSize.fixed 50) (List.replicate 1000 ()) 500 10
      990 = -24775 ∧
    |getSizeInPxFromOneItemToAnother (List.replicate 1000 ()) (ItemSize.fixed 50) 0 500 +
      computeCenterTranslation 500 (ItemSize.fixed 50) (List.replicate 1000 ()) 500 10
        990 +
      extentAt (List.replicate 1000 ()) (ItemSize.fixed 50) 500 / 2 - 500 / 2| ≤ 50 := by
  have h500 : computeCenterTranslation 500 (ItemSize.fixed 50) (List.replicate 1000 ())
      500 10 990 = -24775 := by
    norm_num [computeCenterTranslation, getSizeInPxFromOneItemToAnother, extentAt,
      List.length_replicate]
  refine ⟨?_, ?_, ?_, ?_, h500, ?_⟩
  · intro i hi
    unfold computeCenterTranslation
    rw [if_pos hi]
  · intro i hi1 hi2
    unfold computeCenterTranslation
    rw [if_neg (by omega), if_pos hi2]
  · intro i hi1 hi2
    unfold computeCenterTranslation
    rw [if_neg (by omega), if_neg (by omega)]
  · norm_num [computeCenterTranslation]
  · rw [h500]
    rw [show getSizeInPxFromOneItemToAnother (List.replicate 1000 ()) (ItemSize.fixed 50)
        0 500 = 25000 from by norm_num [getSizeInPxFromOneItemToAnother]]
    rw [show extentAt (List.replicate 1000 ()) (ItemSize.fixed 50) 500 = 50 from rfl]
    rw [abs_le]
    constructor <;> norm_num

theorem c3_centerBehavior_witness :
    computeCenterTranslation 2 (ItemSize.fixed 50) (List.replicate 1000 ()) 500 10
      990 = 0 := by
  have h := c3_centerBehavior (List.replicate 1000 ()) (ItemSize.fixed 50) 500 10 990
  exact h.1 2 (by norm_num)

/-- C1 (counterexample): with N = 10, focus index 5 and window size 3 the spec-derived
window is {start 4, end 7}, but the renderer materializes `data.slice(4, 7 + 1)` =
indices 4,5,6,7 — the item at index `end` IS rendered, so the materialized set is not
the half-open `[start, end)`; moreover with window size 0 the invariant
`start ≤ i < end` fails at N = 1, i = 0. -/
theorem c1_counterexample :
    getRange 10 5 3 = (4, 7) ∧
    dataSliceToRender (List.range 10) (getRange 10 5 3) = [4, 5, 6, 7] ∧
    dataSliceToRender (List.range 10) (getRange 10 5 3) ≠
      jsSlice (List.range 10) (getRange 10 5 3).1 (getRange 10 5 3).2 ∧
    ¬ (getRange 1 0 0).1 < (getRange 1 0 0).2 := by
  exact ⟨rfl, rfl, by decide, by decide⟩

/-- C1 (amended): for every list with N ≥ 1, focus index i < N and window size ≥ 1,
the derived window satisfies 0 ≤ start ≤ i < end ≤ N with the spec's clamped formulas
`start = clamp(i − floor(w/2), 0, max(N−w,0))` and `end = min(start+w, N)`; but the
renderer's slice `data.slice(start, end + 1)` materializes exactly the indices in
`[start, min(end+1, N))`, so the item at index `end` is also rendered whenever
`end < N`. -/
theorem c1_renderWindow (data : List T) (i w : ℕ) (hN : 1 ≤ data.length)
    (hi : i < data.length) (hw : 1 ≤ w) :
    (getRange data.length i w).1 ≤ i ∧
    i < (getRange data.length i w).2 ∧
    (getRange data.length i w).2 ≤ data.length ∧
    (getRange data.length i w).1 = min (i - w / 2) (data.length - w) ∧
    (getRange data.length i w).2 =
      min ((getRange data.length i w).1 + w) data.length ∧
    (∀ k, (dataSliceToRender data (getRange data.length i w))[k]? =
      if k < min ((getRange data.length i w).2 + 1) data.length -
          (getRange data.length i w).1 then
        data[(getRange data.length i w).1 + k]?
      else none) ∧
    ((getRange data.length i w).2 < data.length →
      (dataSliceToRender data (getRange data.length i w))[(getRange data.length i w).2 -
          (getRange data.length i w).1]? =
      data[(getRange data.length i w).2]?) := by
  have hs : (getRange data.length i w).1 = min (i - w / 2) (data.length - w) := rfl
  have he : (getRange data.length i w).2 =
      min (min (i - w / 2) (data.length - w) + w) data.length := rfl
  have hslice : ∀ k, (dataSliceToRender data (getRange data.length i w))[k]? =
      if k < min ((getRange data.length i w).2 + 1) data.length -
          (getRange data.length i w).1 then
        data[(getRange data.length i w).1 + k]?
      else none := by
    intro k
    unfold dataSliceToRender jsSlice
    by_cases hk : k < (getRange data.length i w).2 + 1 - (getRange data.length i w).1
    · rw [List.getElem?_take_of_lt hk, List.getElem?_drop]
      by_cases hk2 : k < min ((getRange data.length i w).2 + 1) data.length -
          (getRange data.length i w).1
      · rw [if_pos hk2]
      · rw [if_neg hk2]
        refine List.getElem?_eq_none_iff.mpr ?_
        omega
    · rw [if_neg (by omega)]
      refine List.getElem?_eq_none_iff.mpr ?_
      rw [List.length_take, List.length_drop]
      omega
  refine ⟨?_, ?_, ?_, rfl, rfl, hslice, ?_⟩
  · rw [hs]; omega
  · rw [he]; omega
  · rw [he]; omega
  · intro hlt
    rw [hslice ((getRange data.length i w).2 - (getRange data.length i w).1)]
    rw [if_pos (by omega)]
    congr 1
    omega

theorem c1_renderWindow_witness :
    (getRange (List.range 5).length 2 2).1 ≤ 2 ∧
    2 < (getRange (List.range 5).length 2 2).2 := by
  have h := c1_renderWindow (List.range 5) 2 2 (by simp) (by simp) (by decide)
  exact ⟨h.1, h.2.1⟩

/-- C5 (counterexample): stick-to-end on a list of 11 items of extent 50 with viewport
500 (so visibleCount = 10, maxRightAlignedIndex = 1) yields offset +350 at focus index
2 — the content is translated beyond the start of the list, so `0 ≤ -offset` fails. -/
theorem c5_counterexample :
    computeTranslation "stick-to-end" 2 (ItemSize.fixed 50) 11
      (getNumberOfItemsVisibleOnScreen (List.range 11) 500 (ItemSize.fixed 50))
      (List.range 11) 500
      (11 - getNumberOfItemsVisibleOnScreen (List.range 11) 500 (ItemSize.fixed 50))
      (11 - getNumberOfItemsVisibleOnScreen (List.range 11) 500 (ItemSize.fixed 50)) =
      .ok 350 ∧
    ¬ (0 : ℚ) ≤ -(350 : ℚ) := by
  have hvc : getNumberOfItemsVisibleOnScreen (List.range 11) 500
      (ItemSize.fixed (50 : ℚ)) = 10 := by
    simp only [getNumberOfItemsVisibleOnScreen]
    norm_num
    rfl
  rw [hvc]
  constructor
  · simp only [computeTranslation]
    rw [if_neg (by decide), if_pos trivial]
    norm_num [computeStickToEndTranslation, extentAt, getSizeInPxFromOneItemToAnother]
  · norm_num

lemma stickToStart_fixed (j maxL : ℕ) (data : List T) (E : ℚ) :
    computeStickToStartTranslation j (ItemSize.fixed E) data maxL =
      -(((min j maxL : ℕ) : ℚ) * E) := by
  unfold computeStickToStartTranslation
  by_cases h : j < maxL
  · rw [if_pos h, Nat.min_eq_left (le_of_lt h)]
    simp [getSizeInPxFromOneItemToAnother]
  · rw [if_neg h, Nat.min_eq_right (by omega)]
    simp [getSizeInPxFromOneItemToAnother]

lemma stickToEnd_fixed (j maxR : ℕ) (data : List T) (E listSizeInPx : ℚ) :
    computeStickToEndTranslation j (ItemSize.fixed E) data listSizeInPx maxR =
      if j ≤ maxR then 0 else -((j : ℚ) * E + E - listSizeInPx) := by
  unfold computeStickToEndTranslation
  by_cases h : j ≤ maxR
  · rw [if_pos h, if_pos h]
  · rw [if_neg h, if_neg h]
    simp [extentAt, getSizeInPxFromOneItemToAnother]

lemma center_fixed (j vc maxR : ℕ) (data : List T) (E listSizeInPx : ℚ) :
    computeCenterTranslation j (ItemSize.fixed E) data listSizeInPx vc maxR =
      if j < vc / 2 then 0
      else if data.length - vc / 2 ≤ j then
        computeStickToEndTranslation j (ItemSize.fixed E) data listSizeInPx maxR
      else -((j : ℚ) * E - (listSizeInPx - E) / 2) := by
  unfold computeCenterTranslation
  by_cases h1 : j < vc / 2
  · rw [if_pos h1, if_pos h1]
  · rw [if_neg h1, if_neg h1]
    by_cases h2 : data.length - vc / 2 ≤ j
    · rw [if_pos h2, if_pos h2]
    · rw [if_neg h2, if_neg h2]
      simp [extentAt, getSizeInPxFromOneItemToAnother]

/-- C5 (amended): with a fixed item extent E > 0, a positive viewport extent,
`visibleCount = ceil(viewportExtent/E)` and a list of at least `2·visibleCount` items,
every behavior's computed offset keeps the content within bounds:
`0 ≤ -offset(i) ≤ totalExtent − viewportExtent` for every focus index `i < N`. -/
theorem c5_scrollBounds (scrollBehavior : String)
    (htag : scrollBehavior = "stick-to-start" ∨ scrollBehavior = "stick-to-end" ∨
      scrollBehavior = "jump-on-scroll" ∨ scrollBehavior = "center")
    (data : List T) (E listSizeInPx : ℚ) (hE : 0 < E) (hV : 0 < listSizeInPx)
    (hN : 2 * getNumberOfItemsVisibleOnScreen data listSizeInPx (ItemSize.fixed E) ≤
      data.length)
    (i : ℕ) (hi : i < data.length) (q : ℚ)
    (hq : computeTranslation scrollBehavior i (ItemSize.fixed E) data.length
      (getNumberOfItemsVisibleOnScreen data listSizeInPx (ItemSize.fixed E)) data
      listSizeInPx
      (data.length - getNumberOfItemsVisibleOnScreen data listSizeInPx (ItemSize.fixed E))
      (data.length - getNumberOfItemsVisibleOnScreen data listSizeInPx (ItemSize.fixed E))
      = .ok q) :
    0 ≤ -q ∧ -q ≤ (data.length : ℚ) * E - listSizeInPx := by
  have hdne : data.isEmpty = false := by
    cases data with
    | nil => simp at hi
    | cons x xs => rfl
  have hvc_eq : getNumberOfItemsVisibleOnScreen data listSizeInPx (ItemSize.fixed E) =
      (⌈listSizeInPx / E⌉).toNat := by
    simp [getNumberOfItemsVisibleOnScreen, hdne]
  set vc := getNumberOfItemsVisibleOnScreen data listSizeInPx (ItemSize.fixed E)
  set N := data.length
  have hvc1 : 1 ≤ vc := by
    rw [hvc_eq]
    have h : (0 : ℤ) < ⌈listSizeInPx / E⌉ := Int.ceil_pos.mpr (div_pos hV hE)
    omega
  have hVle : listSizeInPx ≤ (vc : ℚ) * E := by
    rw [hvc_eq]
    have h1 : listSizeInPx / E ≤ ((⌈listSizeInPx / E⌉ : ℤ) : ℚ) := Int.le_ceil _
    have h0 : (0 : ℤ) ≤ ⌈listSizeInPx / E⌉ :=
      le_of_lt (Int.ceil_pos.mpr (div_pos hV hE))
    have h2 : (((⌈listSizeInPx / E⌉).toNat : ℕ) : ℚ) = ((⌈listSizeInPx / E⌉ : ℤ) : ℚ) := by
      exact_mod_cast Int.toNat_of_nonneg h0
    rw [h2]
    calc listSizeInPx = listSizeInPx / E * E := (div_mul_cancel₀ _ (ne_of_gt hE)).symm
      _ ≤ _ := mul_le_mul_of_nonneg_right h1 (le_of_lt hE)
  have hvcN : vc ≤ N := by omega
  have hcastsub : ((N - vc : ℕ) : ℚ) = (N : ℚ) - (vc : ℚ) := Nat.cast_sub hvcN
  have hNQ : (vc : ℚ) * E ≤ (N : ℚ) * E :=
    mul_le_mul_of_nonneg_right (by exact_mod_cast hvcN) hE.le
  have hend : ∀ j, j < N →
      0 ≤ -(computeStickToEndTranslation j (ItemSize.fixed E) data listSizeInPx
        (N - vc)) ∧
      -(computeStickToEndTranslation j (ItemSize.fixed E) data listSizeInPx (N - vc)) ≤
        (N : ℚ) * E - listSizeInPx := by
    intro j hj
    rw [stickToEnd_fixed]
    by_cases hcase : j ≤ N - vc
    · rw [if_pos hcase]
      constructor
      · norm_num
      · rw [neg_zero]
        linarith
    · rw [if_neg hcase]
      rw [neg_neg]
      have hjvc : vc ≤ j + 1 := by omega
      have hjN : j + 1 ≤ N := by omega
      have h3 : (vc : ℚ) ≤ (j : ℚ) + 1 := by exact_mod_cast hjvc
      have h4 : (j : ℚ) + 1 ≤ (N : ℚ) := by exact_mod_cast hjN
      have h5 : (vc : ℚ) * E ≤ ((j : ℚ) + 1) * E := mul_le_mul_of_nonneg_right h3 hE.le
      have h6 : ((j : ℚ) + 1) * E ≤ (N : ℚ) * E := mul_le_mul_of_nonneg_right h4 hE.le
      constructor
      · nlinarith
      · nlinarith
  rcases htag with rfl | rfl | rfl | rfl
  · have hq' : (Except.ok (computeStickToStartTranslation i (ItemSize.fixed E) data
        (N - vc)) : Except ConfigError ℚ) = Except.ok q := by
      rw [← hq]
      simp [computeTranslation]
    have hqq := Except.ok.inj hq'
    rw [← hqq, stickToStart_fixed, neg_neg]
    have h1 : ((min i (N - vc) : ℕ) : ℚ) ≤ ((N - vc : ℕ) : ℚ) := by
      exact_mod_cast Nat.min_le_right i (N - vc)
    have h2 : ((min i (N - vc) : ℕ) : ℚ) * E ≤ ((N - vc : ℕ) : ℚ) * E :=
      mul_le_mul_of_nonneg_right h1 hE.le
    rw [hcastsub] at h2
    constructor
    · positivity
    · nlinarith
  · have hq' : (Except.ok (computeStickToEndTranslation i (ItemSize.fixed E) data
        listSizeInPx (N - vc)) : Except ConfigError ℚ) = Except.ok q := by
      rw [← hq]
      simp [computeTranslation]
    have hqq := Except.ok.inj hq'
    rw [← hqq]
    exact hend i hi
  · have hq' : computeJumpOnScrollTranslation i (ItemSize.fixed E : ItemSize T) N vc =
        Except.ok q := by
      rw [← hq]
      simp [computeTranslation]
    have hform : computeJumpOnScrollTranslation i (ItemSize.fixed E : ItemSize T) N vc =
        Except.ok (-(((min (i - i % vc) (N - vc) : ℕ) : ℚ) * E)) := rfl
    rw [hform] at hq'
    have hqq := Except.ok.inj hq'
    rw [← hqq, neg_neg]
    have h1 : ((min (i - i % vc) (N - vc) : ℕ) : ℚ) ≤ ((N - vc : ℕ) : ℚ) := by
      exact_mod_cast Nat.min_le_right (i - i % vc) (N - vc)
    have h2 : ((min (i - i % vc) (N - vc) : ℕ) : ℚ) * E ≤ ((N - vc : ℕ) : ℚ) * E :=
      mul_le_mul_of_nonneg_right h1 hE.le
    rw [hcastsub] at h2
    constructor
    · positivity
    · nlinarith
  · have hq' : (Except.ok (computeCenterTranslation i (ItemSize.fixed E) data
        listSizeInPx vc (N - vc)) : Except ConfigError ℚ) = Except.ok q := by
      rw [← hq]
      simp [computeTranslation]
    have hqq := Except.ok.inj hq'
    rw [← hqq, center_fixed]
    by_cases hb1 : i < vc / 2
    · rw [if_pos hb1]
      constructor
      · norm_num
      · rw [neg_zero]
        linarith
    · rw [if_neg hb1]
      by_cases hb2 : N - vc / 2 ≤ i
      · rw [if_pos hb2]
        exact hend i hi
      · rw [if_neg hb2]
        rw [neg_neg]
        have hct1 : vc / 2 ≤ i := by omega
        have hct2 : i + vc / 2 + 1 ≤ N := by omega
        have hkey : (vc : ℚ) ≤ 2 * ((vc / 2 : ℕ) : ℚ) + 1 := by
          exact_mod_cast (by omega : vc ≤ 2 * (vc / 2) + 1)
        have hc1 : ((vc / 2 : ℕ) : ℚ) ≤ (i : ℚ) := by exact_mod_cast hct1
        have hc2 : (i : ℚ) + ((vc / 2 : ℕ) : ℚ) + 1 ≤ (N : ℚ) := by exact_mod_cast hct2
        have h5 : ((vc / 2 : ℕ) : ℚ) * E ≤ (i : ℚ) * E :=
          mul_le_mul_of_nonneg_right hc1 hE.le
        have h6 : (vc : ℚ) * E ≤ (2 * ((vc / 2 : ℕ) : ℚ) + 1) * E :=
          mul_le_mul_of_nonneg_right hkey hE.le
        have h7 : (((vc / 2 : ℕ) : ℚ) + 1) * E ≤ ((N : ℚ) - (i : ℚ)) * E :=
          mul_le_mul_of_nonneg_right (by linarith) hE.le
        constructor
        · nlinarith
        · nlinarith

theorem c5_scrollBounds_witness :
    0 ≤ -(-250 : ℚ) ∧
    -(-250 : ℚ) ≤ ((List.range 20).length : ℚ) * 50 - 500 := by
  have hvc : getNumberOfItemsVisibleOnScreen (List.range 20) 500
      (ItemSize.fixed (50 : ℚ)) = 10 := by
    simp only [getNumberOfItemsVisibleOnScreen]
    norm_num
    rfl
  refine c5_scrollBounds "stick-to-start" (Or.inl rfl) (List.range 20) 50 500
    (by norm_num) (by norm_num) (by rw [hvc]; simp) 5 (by simp) (-250) ?_
  rw [hvc]
  simp [computeTranslation, stickToStart_fixed]
  norm_num
